import Mathlib

/-!
Verification of `llmscrape.py`.

A shallow embedding of the single-file web crawler `src/llmscrape.py` and
proofs about it.  Python sets of strings are modelled as duplicate-free
`List String` values (insertion order is kept so that everything is
executable); the external collaborators (HTTP transport, BeautifulSoup,
pandas table extraction, the LLM API) are modelled as oracle parameters.
The nondeterministic `set.pop()` is modelled by a `pick` oracle choosing
which frontier element is removed, so theorems quantify over every pop
order the Python runtime could exhibit.
-/

set_option autoImplicit false

namespace LlmScrape

/-! ## Python `set` of strings, modelled as a duplicate-free list -/

/-- Model of `s.add(x)` on a Python set: insert `x` unless already present. -/
def sinsert (s : List String) (x : String) : List String :=
  if x ∈ s then s else s ++ [x]

/-- Model of `s.update(t)` on Python sets: insert every element of `t` into `s`. -/
def sunion (s t : List String) : List String :=
  t.foldl sinsert s

/-- Model of `s - t` on Python sets: keep the elements of `s` not in `t`. -/
def sdiff (s t : List String) : List String :=
  s.filter (fun x => !(t.contains x))

/-! ## URLs: model of `urllib.parse.urlparse` / `urljoin`

The source uses the standard library only through `urlparse(u).scheme`,
`urlparse(u).netloc` and `urljoin(base, href)`.  We model the fragment of
RFC 3986 resolution those calls exercise: absolute references, protocol
relative (`//host/...`), root-relative (`/path`) and relative references.
The helpers below use structural recursion on character lists so that all
URL computations reduce inside the kernel. -/

/-- Boolean test that `p` is an initial segment of `l`. -/
def leadsWith : List Char → List Char → Bool
  | [], _ => true
  | _ :: _, [] => false
  | p :: ps, c :: cs => p == c && leadsWith ps cs

/-- Splits a character list at the first occurrence of `sep`, returning
the part before and the part after, or `none` when `sep` never occurs. -/
def splitFirst (sep : List Char) : List Char → Option (List Char × List Char)
  | [] => none
  | c :: cs =>
    if leadsWith sep (c :: cs) then some ([], (c :: cs).drop sep.length)
    else
      match splitFirst sep cs with
      | none => none
      | some (pre, post) => some (c :: pre, post)

structure ParsedUrl where
  scheme : String
  netloc : String
  path : String
deriving Repr, DecidableEq

/-- Model of `urllib.parse.urlparse` restricted to `scheme://netloc/path`
references; a reference without `://` has empty scheme and netloc. -/
def urlparse (u : String) : ParsedUrl :=
  match splitFirst "://".data u.data with
  | none => ⟨"", "", u⟩
  | some (sch, rest) =>
    match splitFirst ['/'] rest with
    | none => ⟨⟨sch⟩, ⟨rest⟩, ""⟩
    | some (host, after) => ⟨⟨sch⟩, ⟨host⟩, ⟨'/' :: after⟩⟩

/-- Whether a reference carries its own scheme, i.e. contains `://`. -/
def hasScheme (href : String) : Bool :=
  (splitFirst "://".data href.data).isSome

/-- The directory part of a path: everything up to and including the last
slash (used for resolving relative references). -/
def dirOf (p : String) : String :=
  match (p.data.reverse.dropWhile (fun c => !(c == '/'))).reverse with
  | [] => "/"
  | segs => ⟨segs⟩

/-- Model of `urllib.parse.urljoin` for the reference shapes above. -/
def urljoin (base href : String) : String :=
  if href = "" then base
  else if hasScheme href then href
  else
    let pb := urlparse base
    if leadsWith "//".data href.data then pb.scheme ++ ":" ++ href
    else if leadsWith ['/'] href.data then
      pb.scheme ++ "://" ++ pb.netloc ++ href
    else pb.scheme ++ "://" ++ pb.netloc ++ dirOf pb.path ++ href

/-! ## Configuration constants (lines 12–17 of the source) -/

def START_URL : String := "https://example.com"

def ALLOWED_DOMAIN : String := (urlparse START_URL).netloc

def MAX_PAGES_TO_CRAWL : Nat := 5

/-! ## The parsing collaborators

the structure `Html` is the abstract queryable document the external collaborators
(BeautifulSoup and `pandas.read_html`) produce for a raw markup string:
the visible text, the `href` attributes of the `<a href=...>` elements,
the `src` attributes of the `<img src=...>` elements, and the result of
table extraction.  `tables = .error ()` models `pandas.read_html` raising
(`ValueError` when no table parses, or `ImportError`); `.ok ts` holds the
markdown renderings `to_markdown(index=False)` of the extracted frames.
A crawl run is parametrised by a `soup : String → Html` oracle mapping
raw markup to its parsed view. -/

structure Html where
  text : String
  anchors : List String
  imgs : List String
  tables : Except Unit (List String)

structure PageData where
  text : String
  links : List String
  images : List String
  tables : List String
deriving Repr, DecidableEq

/-- The link filter of `parse_data` (line 53): scheme http/https and
netloc exactly `ALLOWED_DOMAIN`. -/
def linkAllowed (u : String) : Prop :=
  ((urlparse u).scheme = "http" ∨ (urlparse u).scheme = "https") ∧
    (urlparse u).netloc = ALLOWED_DOMAIN

instance (u : String) : Decidable (linkAllowed u) := by
  unfold linkAllowed; infer_instance

/-- The string built for one table at line 67:
`f"Table {i+1}:\n{table_df.to_markdown(index=False)}\n"`. -/
def mkTableLabel (n : Nat) (t : String) : String :=
  s!"Table {n}:\n{t}\n"

/-- The `for i, table_df in enumerate(tables_on_page)` loop (lines 65–67):
number each rendered table, starting the numbering at `i + 1`. -/
def numberTables : Nat → List String → List String
  | _, [] => []
  | i, t :: ts => mkTableLabel (i + 1) t :: numberTables (i + 1) ts

/-- Model of `parse_data(html, base_url)` (lines 34–76): extract text, the
same-domain links, all image sources, and the numbered table strings.
The `except ValueError / ImportError: pass` handlers (lines 68–73) leave
`data['tables']` as the empty list. -/
def parse_data (soup : String → Html) (html : String) (base_url : String) :
    PageData :=
  let doc := soup html
  let links := doc.anchors.foldl
    (fun acc href =>
      let full_url := urljoin base_url href
      if linkAllowed full_url then sinsert acc full_url else acc) []
  let images := doc.imgs.foldl
    (fun acc src => sinsert acc (urljoin base_url src)) []
  let tables :=
    match doc.tables with
    | .error _ => []
    | .ok ts => numberTables 0 ts
  { text := doc.text, links := links, images := images, tables := tables }

/-! ## Crawl state and loop (lines 128–166) -/

structure Corpus where
  all_text : String
  all_links : List String
  all_images : List String
  all_tables : List String
deriving Repr, DecidableEq

def emptyCorpus : Corpus := ⟨"", [], [], []⟩

/-- Crawl state: the frontier `urls_to_visit`, the set `visited_urls`, the
aggregate `all_scraped_data`, plus a ghost trace `fetched` recording every
URL on which `fetch_page` was invoked (in order), used to state the
"no URL is fetched twice" and "no fetch is attempted" properties. -/
structure CrawlState where
  urls_to_visit : List String
  visited_urls : List String
  data : Corpus
  fetched : List String
deriving Repr, DecidableEq

def initState : CrawlState :=
  { urls_to_visit := [START_URL], visited_urls := [], data := emptyCorpus,
    fetched := [] }

/-- The URL `urls_to_visit.pop()` removes, under the pop oracle `pick`. -/
def popped (pick : List String → Nat) (f : List String) : String :=
  f.getD (pick f % f.length) ""

/-- Lines 161–163: `new_links = page_data['links'] - visited_urls;
urls_to_visit.update(new_links)` — the frontier `offer` operation. -/
def offer (frontier visited new : List String) : List String :=
  sunion frontier (sdiff new visited)

/-- The merge step of lines 156–159: append text with a separator, union
the link and image sets, append the table strings. -/
def mergeCorpus (c : Corpus) (p : PageData) : Corpus :=
  { all_text := c.all_text ++ p.text ++ "\n\n",
    all_links := sunion c.all_links p.links,
    all_images := sunion c.all_images p.images,
    all_tables := c.all_tables ++ p.tables }

/-- The failed-fetch outcome of one iteration (lines 140, 148–149 with a
falsy `html_content`): the URL is popped, recorded as visited, and the
fetch attempt is traced; the corpus is untouched. -/
def markVisitedOnly (s : CrawlState) (current : String) : CrawlState :=
  { urls_to_visit := s.urls_to_visit.erase current,
    visited_urls := sinsert s.visited_urls current,
    data := s.data,
    fetched := s.fetched ++ [current] }

/-- The successful-fetch outcome of one iteration (lines 151–163): parse,
merge into the corpus, and offer the new links to the frontier. -/
def mergePage (soup : String → Html) (s : CrawlState)
    (current html : String) : CrawlState :=
  let page_data := parse_data soup html current
  { urls_to_visit :=
      offer (s.urls_to_visit.erase current) (sinsert s.visited_urls current)
        page_data.links,
    visited_urls := sinsert s.visited_urls current,
    data := mergeCorpus s.data page_data,
    fetched := s.fetched ++ [current] }

/-- One iteration of the `while` body (lines 140–163).  `fetch` models
`fetch_page`: `none` is a failed fetch (`requests` exception → `None`);
`some body` is `response.text`.  The `if html_content:` truthiness test
at line 151 makes an empty successful body take the same path as a
failure. -/
def step (pick : List String → Nat) (fetch : String → Option String)
    (soup : String → Html) (s : CrawlState) : CrawlState :=
  if popped pick s.urls_to_visit ∈ s.visited_urls then
    { s with urls_to_visit :=
        s.urls_to_visit.erase (popped pick s.urls_to_visit) }
  else
    match fetch (popped pick s.urls_to_visit) with
    | none => markVisitedOnly s (popped pick s.urls_to_visit)
    | some html_content =>
      if html_content = "" then markVisitedOnly s (popped pick s.urls_to_visit)
      else mergePage soup s (popped pick s.urls_to_visit) html_content

/-- The `while` guard (line 139): frontier non-empty and visited count
strictly below the budget. -/
def shouldContinue (s : CrawlState) : Bool :=
  !s.urls_to_visit.isEmpty && s.visited_urls.length < MAX_PAGES_TO_CRAWL

/-- The crawl loop, fuel-indexed (the Python loop needs no fuel; every
theorem below holds for every fuel value, and enough fuel reaches the
loop's exit in the concrete scenarios). -/
def crawlLoop (pick : List String → Nat) (fetch : String → Option String)
    (soup : String → Html) : Nat → CrawlState → CrawlState
  | 0, s => s
  | fuel + 1, s =>
    if shouldContinue s then crawlLoop pick fetch soup fuel (step pick fetch soup s)
    else s

/-- Model of `crawl()` (lines 128–166): run the loop from the initial state. -/
def crawl (pick : List String → Nat) (fetch : String → Option String)
    (soup : String → Html) (fuel : Nat) : CrawlState :=
  crawlLoop pick fetch soup fuel initState

/-! ## Reporter: `call_llm` (lines 78–116) and the main block (169–179) -/

/-- Python truthiness of `GOOGLE_API_KEY = os.getenv(...)`: `None` (unset)
and the empty string are falsy. -/
def keyTruthy : Option String → Bool
  | none => false
  | some k => !k.isEmpty

/-- A single quote character, written by code point for the Python `repr`
of a string. -/
def sq : String := "\x27"

/-- Model of the Python `repr` of a `list` of strings, as interpolated by
the f-string at lines 94 and 97. -/
def pyReprList (l : List String) : String :=
  "[" ++ String.intercalate ", " (l.map (fun s => sq ++ s ++ sq)) ++ "]"

/-- One table entry of the prompt (line 106):
`f"\n--- Table {i+1} ---\n{table_str[:300]}...\n"`. -/
def tableEntry (n : Nat) (table_str : String) : String :=
  s!"\n--- Table {n} ---\n" ++ table_str.take 300 ++ "...\n"

/-- The `for i, table_str in enumerate(...)` loop of lines 102–106:
append each table (truncated to 300 chars) until index 3, where the
"more tables exist" marker is appended and the loop breaks. -/
def tableLines : Nat → List String → String
  | _, [] => ""
  | i, table_str :: rest =>
    if i ≥ 3 then "... (more tables exist)\n"
    else tableEntry (i + 1) table_str ++ tableLines (i + 1) rest

/-- The first line of the prompt f-string (line 88). -/
def introLine : String :=
  s!"Analyze the following data scraped from {START_URL} and its subpages. Provide a concise summary of the main topics, list key links/images, and summarize any tabular data found.\n\n"

/-- Lines 90–91 of the prompt: the fixed 500-character text prefix. -/
def textSection (text : String) : String :=
  "Extracted Text Summary (first 500 chars):\n" ++ text.take 500 ++ "...\n\n"

/-- Lines 93–94 of the prompt: total link count, first 10 links, and the
`...` marker exactly when more than 10 links exist. -/
def linksSection (links : List String) : String :=
  "Key Links Found (" ++ toString links.length ++ " total):\n"
    ++ pyReprList (links.take 10) ++ " "
    ++ (if links.length > 10 then "..." else "") ++ "\n\n"

/-- Lines 96–97 of the prompt: total image count, first 10 images, and
the `...` marker exactly when more than 10 images exist. -/
def imagesSection (images : List String) : String :=
  "Image Sources Found (" ++ toString images.length ++ " total):\n"
    ++ pyReprList (images.take 10) ++ " "
    ++ (if images.length > 10 then "..." else "") ++ "\n\n"

/-- Line 99 of the prompt: the table-count header. -/
def tablesHeader (tables : List String) : String :=
  "Tables Found (" ++ toString tables.length ++ " total):\n"

/-- The prompt built by `call_llm` (lines 88–106) from the aggregate
corpus: fixed 500-char text prefix, first 10 links and images with a
`...` marker when more exist, and at most 3 tables of at most 300 chars
each with an explicit marker when more tables exist. -/
def build_prompt (c : Corpus) : String :=
  introLine ++ textSection c.all_text ++ linksSection c.all_links
    ++ imagesSection c.all_images ++ tablesHeader c.all_tables
    ++ tableLines 0 c.all_tables

/-- Model of `call_llm(scraped_content)` (lines 78–116).  `llm` models the
generative-AI collaborator; `.error e` models an exception, whose text
becomes the returned report. -/
def call_llm (apiKey : Option String) (llm : String → Except String String)
    (c : Corpus) : String :=
  if !keyTruthy apiKey then
    "Error: GOOGLE_API_KEY not found in environment variables."
  else
    match llm (build_prompt c) with
    | .ok t => t
    | .error e => s!"Error during LLM processing: {e}"

/-- Python truthiness of the `if scraped_data['all_text'] or ...` test at
line 175: some component of the corpus is non-empty. -/
def corpusTruthy (c : Corpus) : Bool :=
  !c.all_text.isEmpty || !c.all_links.isEmpty || !c.all_images.isEmpty
    || !c.all_tables.isEmpty

/-- Outcome of the `__main__` block: missing-credential report, the
"No data was scraped successfully." report, or an LLM report saved to the
output file. -/
inductive MainOutcome where
  | missingKey
  | noData
  | report (text : String)
deriving Repr, DecidableEq

/-- The `__main__` block (lines 169–179): credential precondition first,
then crawl, then either the LLM report or the no-data report.  Returns
the outcome together with the trace of attempted fetches. -/
def mainRun (apiKey : Option String) (pick : List String → Nat)
    (fetch : String → Option String) (soup : String → Html)
    (llm : String → Except String String) (fuel : Nat) :
    MainOutcome × List String :=
  if !keyTruthy apiKey then (.missingKey, [])
  else
    let s := crawl pick fetch soup fuel
    if corpusTruthy s.data then (.report (call_llm apiKey llm s.data), s.fetched)
    else (.noData, s.fetched)

/-! ## Auxiliary definitions for the verification -/

/-- The run invariant: frontier and visited set are duplicate-free and
disjoint, the fetch trace is duplicate-free, every fetched URL is
visited, and exactly as many fetches were attempted as URLs were
recorded visited. -/
def Inv (s : CrawlState) : Prop :=
  s.urls_to_visit.Nodup ∧ s.visited_urls.Nodup ∧
    (∀ u ∈ s.urls_to_visit, u ∉ s.visited_urls) ∧
    s.fetched.Nodup ∧ (∀ u ∈ s.fetched, u ∈ s.visited_urls) ∧
    s.fetched.length = s.visited_urls.length

/-- Rendering of a list of table strings as consecutive prompt entries,
numbered from `i + 1`; the closed-form counterpart of `tableLines`. -/
def renderShown : Nat → List String → String
  | _, [] => ""
  | i, t :: ts => tableEntry (i + 1) t ++ renderShown (i + 1) ts

/-- Boolean substring test on character lists, used to check marker
occurrence on concrete prompts. -/
def hasSub (hay pat : List Char) : Bool :=
  match hay with
  | [] => leadsWith pat []
  | _ :: rest => leadsWith pat hay || hasSub rest pat

/-! ## Concrete oracles for the scenario theorems and witnesses -/

/-- A pop oracle that always removes the first frontier element. -/
def pick0 : List String → Nat := fun _ => 0

/-- A transport oracle on which every fetch fails. -/
def fetchNone : String → Option String := fun _ => none

/-- A transport oracle that succeeds only on the seed URL. -/
def fetchSeedOnly : String → Option String :=
  fun u => if u = START_URL then some "<html>" else none

/-- A parsing oracle producing an empty document. -/
def soupEmpty : String → Html := fun _ => ⟨"", [], [], .error ()⟩

/-- A parsing oracle producing a crafted page with one out-of-domain
anchor, one in-domain anchor, and one cross-domain image. -/
def soupCross : String → Html := fun _ =>
  ⟨"hello", ["https://other.org/x", "page2"],
    ["https://cdn.other.net/pic.jpg"], .error ()⟩

/-- A summarization oracle that always succeeds. -/
def llmOk : String → Except String String := fun _ => .ok "summary"

/-- A parsing oracle whose table extraction yields two rendered tables. -/
def soupTables : String → Html :=
  fun _ => ⟨"", [], [], .ok ["|a|", "|b|"]⟩

/-- A corpus with eleven links (one over the display limit) and nothing
else, exhibiting link-list truncation. -/
def cEleven : Corpus :=
  ⟨"", ["l1", "l2", "l3", "l4", "l5", "l6", "l7", "l8", "l9", "l10", "l11"],
    [], []⟩

/-- A crawl state whose frontier is exhausted. -/
def stoppedState : CrawlState :=
  ⟨[], [START_URL], emptyCorpus, [START_URL]⟩

/-! ## Lemmas about the set model -/

theorem mem_sinsert {s : List String} {x u : String} :
    u ∈ sinsert s x ↔ u ∈ s ∨ u = x := by
  unfold sinsert
  by_cases h : x ∈ s
  · rw [if_pos h]
    constructor
    · exact Or.inl
    · rintro (hu | rfl)
      · exact hu
      · exact h
  · rw [if_neg h]
    simp

theorem nodup_sinsert {s : List String} (x : String) (h : s.Nodup) :
    (sinsert s x).Nodup := by
  unfold sinsert
  by_cases hx : x ∈ s
  · rw [if_pos hx]; exact h
  · rw [if_neg hx]
    rw [List.nodup_append]
    refine ⟨h, List.nodup_singleton x, ?_⟩
    intro a ha hax
    rw [List.mem_singleton] at hax
    exact hx (hax ▸ ha)

theorem length_sinsert_le (s : List String) (x : String) :
    (sinsert s x).length ≤ s.length + 1 := by
  unfold sinsert
  by_cases hx : x ∈ s
  · rw [if_pos hx]; omega
  · rw [if_neg hx]; simp

theorem length_sinsert_of_not_mem {s : List String} {x : String}
    (h : x ∉ s) : (sinsert s x).length = s.length + 1 := by
  rw [sinsert, if_neg h]; simp

theorem sinsert_of_mem {s : List String} {x : String} (h : x ∈ s) :
    sinsert s x = s := by
  rw [sinsert, if_pos h]

theorem mem_sunion {s t : List String} {u : String} :
    u ∈ sunion s t ↔ u ∈ s ∨ u ∈ t := by
  induction t generalizing s with
  | nil => simp [sunion]
  | cons a t ih =>
    show u ∈ sunion (sinsert s a) t ↔ _
    rw [ih, mem_sinsert]
    simp only [List.mem_cons]
    tauto

theorem nodup_sunion {s : List String} (t : List String) (h : s.Nodup) :
    (sunion s t).Nodup := by
  induction t generalizing s with
  | nil => exact h
  | cons a t ih => exact ih (nodup_sinsert a h)

theorem sunion_eq_of_subset {s t : List String} (h : ∀ x ∈ t, x ∈ s) :
    sunion s t = s := by
  induction t with
  | nil => rfl
  | cons a t ih =>
    show sunion (sinsert s a) t = s
    rw [sinsert_of_mem (h a (by simp))]
    exact ih (fun x hx => h x (by simp [hx]))

theorem mem_sdiff {s t : List String} {u : String} :
    u ∈ sdiff s t ↔ u ∈ s ∧ u ∉ t := by
  simp [sdiff, List.mem_filter]

theorem mem_offer {f v new : List String} {u : String} :
    u ∈ offer f v new ↔ u ∈ f ∨ (u ∈ new ∧ u ∉ v) := by
  rw [offer, mem_sunion, mem_sdiff]

/-! ## Lemmas about pop and the loop skeleton -/

theorem popped_mem {f : List String} (pick : List String → Nat)
    (h : f ≠ []) : popped pick f ∈ f := by
  have hlen : 0 < f.length := List.length_pos.mpr h
  have hlt : pick f % f.length < f.length := Nat.mod_lt _ hlen
  rw [popped, List.getD_eq_getElem f "" hlt]
  exact List.getElem_mem hlt

theorem popped_singleton (pick : List String → Nat) (a : String) :
    popped pick [a] = a := by
  simp [popped, Nat.mod_one]

theorem crawlLoop_of_stop {pick : List String → Nat}
    {fetch : String → Option String} {soup : String → Html} {s : CrawlState}
    (h : shouldContinue s = false) (n : Nat) :
    crawlLoop pick fetch soup n s = s := by
  cases n with
  | zero => rfl
  | succ n => rw [crawlLoop, if_neg (by simp [h])]

theorem crawlLoop_of_continue {pick : List String → Nat}
    {fetch : String → Option String} {soup : String → Html} {s : CrawlState}
    (h : shouldContinue s = true) (n : Nat) :
    crawlLoop pick fetch soup (n + 1) s =
      crawlLoop pick fetch soup n (step pick fetch soup s) := by
  rw [crawlLoop, if_pos h]

theorem shouldContinue_iff (s : CrawlState) :
    shouldContinue s = true ↔
      s.urls_to_visit ≠ [] ∧ s.visited_urls.length < MAX_PAGES_TO_CRAWL := by
  simp [shouldContinue]

/-! ## The step function, case by case -/

theorem step_skip {pick : List String → Nat} {s : CrawlState}
    (fetch : String → Option String) (soup : String → Html)
    (hm : popped pick s.urls_to_visit ∈ s.visited_urls) :
    step pick fetch soup s =
      { s with urls_to_visit :=
          s.urls_to_visit.erase (popped pick s.urls_to_visit) } := by
  rw [step, if_pos hm]

theorem step_fail {pick : List String → Nat} {fetch : String → Option String}
    {s : CrawlState} (soup : String → Html)
    (hm : popped pick s.urls_to_visit ∉ s.visited_urls)
    (hf : fetch (popped pick s.urls_to_visit) = none) :
    step pick fetch soup s =
      markVisitedOnly s (popped pick s.urls_to_visit) := by
  rw [step, if_neg hm, hf]

theorem step_empty {pick : List String → Nat} {fetch : String → Option String}
    {s : CrawlState} (soup : String → Html)
    (hm : popped pick s.urls_to_visit ∉ s.visited_urls)
    (hf : fetch (popped pick s.urls_to_visit) = some "") :
    step pick fetch soup s =
      markVisitedOnly s (popped pick s.urls_to_visit) := by
  rw [step, if_neg hm, hf]
  simp

theorem step_success {pick : List String → Nat}
    {fetch : String → Option String} {s : CrawlState} {html : String}
    (soup : String → Html)
    (hm : popped pick s.urls_to_visit ∉ s.visited_urls)
    (hf : fetch (popped pick s.urls_to_visit) = some html) (hh : html ≠ "") :
    step pick fetch soup s =
      mergePage soup s (popped pick s.urls_to_visit) html := by
  rw [step, if_neg hm, hf]
  exact if_neg hh

/-! ## The run invariant -/

theorem inv_init : Inv initState := by
  refine ⟨?_, ?_, ?_, ?_, ?_, ?_⟩ <;> simp [initState]

theorem inv_markVisitedOnly {s : CrawlState} {cur : String} (h : Inv s)
    (hcur : cur ∉ s.visited_urls) : Inv (markVisitedOnly s cur) := by
  obtain ⟨h1, h2, h3, h4, h5, h6⟩ := h
  unfold Inv markVisitedOnly
  refine ⟨h1.erase cur, nodup_sinsert cur h2, ?_, ?_, ?_, ?_⟩
  · intro u hu
    rw [h1.mem_erase_iff] at hu
    rw [mem_sinsert]
    rintro (hv | rfl)
    · exact h3 u hu.2 hv
    · exact hu.1 rfl
  · rw [List.nodup_append]
    refine ⟨h4, List.nodup_singleton cur, ?_⟩
    intro a ha hax
    rw [List.mem_singleton] at hax
    exact hcur (hax ▸ h5 a ha)
  · intro u hu
    rw [List.mem_append, List.mem_singleton] at hu
    rw [mem_sinsert]
    rcases hu with hu | rfl
    · exact Or.inl (h5 u hu)
    · exact Or.inr rfl
  · rw [List.length_append, length_sinsert_of_not_mem hcur]
    simp [h6]

theorem inv_mergePage {s : CrawlState} {cur html : String}
    (soup : String → Html) (h : Inv s) (hcur : cur ∉ s.visited_urls) :
    Inv (mergePage soup s cur html) := by
  have base := inv_markVisitedOnly h hcur
  obtain ⟨b1, b2, b3, b4, b5, b6⟩ := base
  refine ⟨?_, b2, ?_, b4, b5, b6⟩
  · exact nodup_sunion _ b1
  · intro u hu
    rw [mergePage] at hu ⊢
    rw [mem_offer] at hu
    rcases hu with hu | ⟨_, hnv⟩
    · exact b3 u hu
    · exact hnv

theorem inv_step (pick : List String → Nat) (fetch : String → Option String)
    (soup : String → Html) {s : CrawlState} (h : Inv s) :
    Inv (step pick fetch soup s) := by
  obtain ⟨h1, h2, h3, h4, h5, h6⟩ := h
  by_cases hm : popped pick s.urls_to_visit ∈ s.visited_urls
  · rw [step_skip fetch soup hm]
    exact ⟨h1.erase _, h2,
      fun u hu => h3 u (List.erase_subset _ _ hu), h4, h5, h6⟩
  · cases hf : fetch (popped pick s.urls_to_visit) with
    | none =>
      rw [step_fail soup hm hf]
      exact inv_markVisitedOnly ⟨h1, h2, h3, h4, h5, h6⟩ hm
    | some html =>
      by_cases hh : html = ""
      · subst hh
        rw [step_empty soup hm hf]
        exact inv_markVisitedOnly ⟨h1, h2, h3, h4, h5, h6⟩ hm
      · rw [step_success soup hm hf hh]
        exact inv_mergePage soup ⟨h1, h2, h3, h4, h5, h6⟩ hm

theorem inv_crawlLoop (pick : List String → Nat)
    (fetch : String → Option String) (soup : String → Html) (n : Nat)
    {s : CrawlState} (h : Inv s) :
    Inv (crawlLoop pick fetch soup n s) := by
  induction n generalizing s with
  | zero => exact h
  | succ n ih =>
    by_cases hc : shouldContinue s
    · rw [crawlLoop_of_continue hc]
      exact ih (inv_step pick fetch soup h)
    · rw [crawlLoop_of_stop (by simpa using hc)]
      exact h

/-! ## The page budget -/

theorem step_visited_le (pick : List String → Nat)
    (fetch : String → Option String) (soup : String → Html) (s : CrawlState) :
    (step pick fetch soup s).visited_urls.length ≤
      s.visited_urls.length + 1 := by
  by_cases hm : popped pick s.urls_to_visit ∈ s.visited_urls
  · rw [step_skip fetch soup hm]
    exact Nat.le_succ _
  · cases hf : fetch (popped pick s.urls_to_visit) with
    | none => rw [step_fail soup hm hf]; exact length_sinsert_le _ _
    | some html =>
      by_cases hh : html = ""
      · subst hh
        rw [step_empty soup hm hf]; exact length_sinsert_le _ _
      · rw [step_success soup hm hf hh]; exact length_sinsert_le _ _

theorem crawlLoop_visited_le (pick : List String → Nat)
    (fetch : String → Option String) (soup : String → Html) (n : Nat)
    {s : CrawlState} (h : s.visited_urls.length ≤ MAX_PAGES_TO_CRAWL) :
    (crawlLoop pick fetch soup n s).visited_urls.length ≤
      MAX_PAGES_TO_CRAWL := by
  induction n generalizing s with
  | zero => exact h
  | succ n ih =>
    by_cases hc : shouldContinue s
    · rw [crawlLoop_of_continue hc]
      refine ih ?_
      have hlt := ((shouldContinue_iff s).mp hc).2
      have := step_visited_le pick fetch soup s
      omega
    · rw [crawlLoop_of_stop (by simpa using hc)]
      exact h

/-! ## Extraction lemmas -/

theorem mem_linkFold (base : String) (anchors acc : List String)
    (u : String) :
    (u ∈ anchors.foldl (fun acc href =>
        let full_url := urljoin base href
        if linkAllowed full_url then sinsert acc full_url else acc) acc) ↔
      u ∈ acc ∨ ((∃ href ∈ anchors, urljoin base href = u) ∧ linkAllowed u) := by
  induction anchors generalizing acc with
  | nil => simp
  | cons a t ih =>
    simp only [List.foldl_cons]
    rw [ih]
    by_cases hp : linkAllowed (urljoin base a)
    · rw [if_pos hp, mem_sinsert]
      constructor
      · rintro ((hu | rfl) | ⟨⟨href, hht, heq⟩, hP⟩)
        · exact Or.inl hu
        · exact Or.inr ⟨⟨a, by simp⟩, hp⟩
        · exact Or.inr ⟨⟨href, by simp [hht], heq⟩, hP⟩
      · rintro (hu | ⟨⟨href, hh, heq⟩, hP⟩)
        · exact Or.inl (Or.inl hu)
        · rcases List.mem_cons.mp hh with rfl | hht
          · exact Or.inl (Or.inr heq.symm)
          · exact Or.inr ⟨⟨href, hht, heq⟩, hP⟩
    · rw [if_neg hp]
      constructor
      · rintro (hu | ⟨⟨href, hht, heq⟩, hP⟩)
        · exact Or.inl hu
        · exact Or.inr ⟨⟨href, by simp [hht], heq⟩, hP⟩
      · rintro (hu | ⟨⟨href, hh, heq⟩, hP⟩)
        · exact Or.inl hu
        · rcases List.mem_cons.mp hh with rfl | hht
          · exact absurd (heq ▸ hP) hp
          · exact Or.inr ⟨⟨href, hht, heq⟩, hP⟩

theorem mem_imgFold (base : String) (srcs acc : List String) (u : String) :
    (u ∈ srcs.foldl (fun acc src => sinsert acc (urljoin base src)) acc) ↔
      u ∈ acc ∨ ∃ src ∈ srcs, urljoin base src = u := by
  induction srcs generalizing acc with
  | nil => simp
  | cons a t ih =>
    simp only [List.foldl_cons]
    rw [ih, mem_sinsert]
    constructor
    · rintro ((hu | rfl) | ⟨src, hht, heq⟩)
      · exact Or.inl hu
      · exact Or.inr ⟨a, by simp⟩
      · exact Or.inr ⟨src, by simp [hht], heq⟩
    · rintro (hu | ⟨src, hh, heq⟩)
      · exact Or.inl (Or.inl hu)
      · rcases List.mem_cons.mp hh with rfl | hht
        · exact Or.inl (Or.inr heq.symm)
        · exact Or.inr ⟨src, hht, heq⟩

theorem parse_data_links_mem (soup : String → Html) (html base u : String) :
    u ∈ (parse_data soup html base).links ↔
      linkAllowed u ∧ ∃ href ∈ (soup html).anchors, urljoin base href = u := by
  show u ∈ (soup html).anchors.foldl _ [] ↔ _
  rw [mem_linkFold]
  simp only [List.not_mem_nil, false_or]
  tauto

theorem parse_data_images_mem (soup : String → Html) (html base u : String) :
    u ∈ (parse_data soup html base).images ↔
      ∃ src ∈ (soup html).imgs, urljoin base src = u := by
  show u ∈ (soup html).imgs.foldl _ [] ↔ _
  rw [mem_imgFold]
  simp

theorem numberTables_length (k : Nat) (ts : List String) :
    (numberTables k ts).length = ts.length := by
  induction ts generalizing k with
  | nil => rfl
  | cons a t ih => simp [numberTables, ih]

theorem numberTables_getD (ts : List String) (k i : Nat)
    (h : i < ts.length) :
    (numberTables k ts).getD i "" =
      mkTableLabel (k + i + 1) (ts.getD i "") := by
  induction ts generalizing k i with
  | nil => simp at h
  | cons a t ih =>
    cases i with
    | zero => rfl
    | succ i =>
      show (numberTables (k + 1) t).getD i "" = _
      rw [ih (k + 1) i (by simpa using h)]
      have harith : k + 1 + i + 1 = k + (i + 1) + 1 := by omega
      rw [harith]
      rfl

/-! ## Closed form of the prompt's table loop -/

theorem tableLines_closed (ts : List String) (k : Nat) :
    tableLines k ts =
      renderShown k (ts.take (3 - k)) ++
        (if 3 - k < ts.length then "... (more tables exist)\n" else "") := by
  induction ts generalizing k with
  | nil => simp [tableLines, renderShown]
  | cons a t ih =>
    by_cases hk : k ≥ 3
    · have h3 : 3 - k = 0 := by omega
      rw [tableLines, if_pos hk, h3]
      simp [renderShown]
    · have h3 : 3 - k = (3 - (k + 1)) + 1 := by omega
      rw [tableLines, if_neg hk, ih (k + 1), h3]
      simp only [List.take_succ_cons, renderShown, List.length_cons]
      rw [String.append_assoc]
      simp

/-- The table part of the prompt shows exactly the first three tables,
numbered 1, 2, 3, and appends the "more tables exist" marker precisely
when a fourth table exists. -/
theorem tableLines_take_three (ts : List String) :
    tableLines 0 ts =
      renderShown 0 (ts.take 3) ++
        (if 3 < ts.length then "... (more tables exist)\n" else "") :=
  tableLines_closed ts 0

theorem length_take_le_str (s : String) (n : Nat) : (s.take n).length ≤ n := by
  have h : (s.take n).length = (List.take n s.data).length := by
    rw [String.length, String.data_take s n]
  rw [h]
  exact List.length_take_le n s.data

theorem sdiff_single (u : String) (v : List String) :
    sdiff [u] v = if u ∈ v then [] else [u] := by
  by_cases h : u ∈ v <;> simp [sdiff, h]

/-! ## Every corpus link passes the domain filter -/

theorem linksOk_step (pick : List String → Nat)
    (fetch : String → Option String) (soup : String → Html) (s : CrawlState)
    (h : ∀ u ∈ s.data.all_links, linkAllowed u) :
    ∀ u ∈ (step pick fetch soup s).data.all_links, linkAllowed u := by
  by_cases hm : popped pick s.urls_to_visit ∈ s.visited_urls
  · rw [step_skip fetch soup hm]; exact h
  · cases hf : fetch (popped pick s.urls_to_visit) with
    | none => rw [step_fail soup hm hf]; exact h
    | some html =>
      by_cases hh : html = ""
      · subst hh
        rw [step_empty soup hm hf]; exact h
      · rw [step_success soup hm hf hh]
        intro u hu
        show linkAllowed u
        have : u ∈ sunion s.data.all_links
            (parse_data soup html (popped pick s.urls_to_visit)).links := hu
        rw [mem_sunion] at this
        rcases this with hold | hnew
        · exact h u hold
        · exact ((parse_data_links_mem soup html _ u).mp hnew).1

theorem linksOk_crawlLoop (pick : List String → Nat)
    (fetch : String → Option String) (soup : String → Html) (n : Nat)
    {s : CrawlState} (h : ∀ u ∈ s.data.all_links, linkAllowed u) :
    ∀ u ∈ (crawlLoop pick fetch soup n s).data.all_links, linkAllowed u := by
  induction n generalizing s with
  | zero => exact h
  | succ n ih =>
    by_cases hc : shouldContinue s
    · rw [crawlLoop_of_continue hc]
      exact ih (linksOk_step pick fetch soup s h)
    · rw [crawlLoop_of_stop (by simpa using hc)]
      exact h

/-! ## Claim theorems -/

/-- C1: for every run of the crawl loop — any pop order, transport,
parser and fuel — the number of visited URLs never exceeds
`MAX_PAGES_TO_CRAWL`, and so does the number of attempted fetches; the
loop guard holds iff the frontier is non-empty and the visited count is
strictly below the budget; and once the guard fails no further iteration
(hence no fetch) occurs, so the budget is checked before each fetch, not
after. -/
theorem C1_budget_invariant (pick : List String → Nat)
    (fetch : String → Option String) (soup : String → Html) (fuel : Nat) :
    (crawl pick fetch soup fuel).visited_urls.length ≤ MAX_PAGES_TO_CRAWL ∧
    (crawl pick fetch soup fuel).fetched.length ≤ MAX_PAGES_TO_CRAWL ∧
    (∀ s : CrawlState, shouldContinue s = true ↔
      (s.urls_to_visit ≠ [] ∧ s.visited_urls.length < MAX_PAGES_TO_CRAWL)) ∧
    (∀ s : CrawlState, shouldContinue s = false →
      ∀ n : Nat, crawlLoop pick fetch soup n s = s) := by
  have hinv := inv_crawlLoop pick fetch soup fuel (s := initState) inv_init
  have hv := crawlLoop_visited_le pick fetch soup fuel (s := initState)
    (by simp [initState])
  refine ⟨hv, ?_, shouldContinue_iff, fun s h n => crawlLoop_of_stop h n⟩
  show (crawlLoop pick fetch soup fuel initState).fetched.length ≤ _
  rw [hinv.2.2.2.2.2]
  exact hv

/-- Witness for C1: the budget bound at concrete oracles, and a stopped
state on which the loop is the identity. -/
theorem C1_budget_invariant_witness :
    (crawl pick0 fetchNone soupEmpty 10).visited_urls.length ≤
      MAX_PAGES_TO_CRAWL ∧
    crawlLoop pick0 fetchNone soupEmpty 3 stoppedState = stoppedState := by
  have h := C1_budget_invariant pick0 fetchNone soupEmpty 10
  exact ⟨h.1, h.2.2.2 stoppedState (by decide) 3⟩

/-- C2: in every run no URL is fetched twice (the fetch trace is
duplicate-free); frontier and visited set are disjoint after every
number of iterations; and the `offer` operation of lines 161–163 is
idempotent — offering the same URLs twice changes nothing, a single
offered URL grows the frontier by at most one entry, and offering a URL
already in the visited set never re-adds it to the frontier. -/
theorem C2_no_refetch_disjoint (pick : List String → Nat)
    (fetch : String → Option String) (soup : String → Html) (fuel : Nat) :
    (crawl pick fetch soup fuel).fetched.Nodup ∧
    (∀ u ∈ (crawl pick fetch soup fuel).urls_to_visit,
      u ∉ (crawl pick fetch soup fuel).visited_urls) ∧
    (∀ f v us : List String, offer (offer f v us) v us = offer f v us) ∧
    (∀ (f v : List String) (u : String),
      (offer f v [u]).length ≤ f.length + 1) ∧
    (∀ (f v us : List String) (u : String), u ∈ v →
      (u ∈ offer f v us ↔ u ∈ f)) := by
  have hinv := inv_crawlLoop pick fetch soup fuel (s := initState) inv_init
  refine ⟨hinv.2.2.2.1, hinv.2.2.1, ?_, ?_, ?_⟩
  · intro f v us
    unfold offer
    apply sunion_eq_of_subset
    intro x hx
    rw [mem_sunion]
    exact Or.inr hx
  · intro f v u
    unfold offer
    rw [sdiff_single]
    by_cases h : u ∈ v
    · rw [if_pos h]
      exact Nat.le_succ _
    · rw [if_neg h]
      exact length_sinsert_le f u
  · intro f v us u h
    rw [mem_offer]
    simp [h]

/-- Witness for C2: offering a URL already visited does not re-add it,
at concrete sets; no-refetch at concrete oracles. -/
theorem C2_no_refetch_disjoint_witness :
    ("b" ∈ offer ["a"] ["b"] ["b", "c"] ↔ "b" ∈ ["a"]) ∧
    (crawl pick0 fetchNone soupEmpty 2).fetched.Nodup := by
  have h := C2_no_refetch_disjoint pick0 fetchNone soupEmpty 2
  exact ⟨h.2.2.2.2 ["a"] ["b"] ["b", "c"] "b" (by decide), h.1⟩

/-- C3: a URL is in the extracted links of a page iff it is the
resolution (against the page URL) of some anchor of the page and passes
the filter — scheme http or https and host exactly `ALLOWED_DOMAIN`;
consequently every element of the corpus `all_links` passes the filter,
so an out-of-domain anchor never appears there. -/
theorem C3_same_domain_links (pick : List String → Nat)
    (fetch : String → Option String) (soup : String → Html) (fuel : Nat) :
    (∀ html base u : String,
      u ∈ (parse_data soup html base).links ↔
        linkAllowed u ∧ ∃ href ∈ (soup html).anchors, urljoin base href = u) ∧
    (∀ u ∈ (crawl pick fetch soup fuel).data.all_links, linkAllowed u) := by
  refine ⟨fun html base u => parse_data_links_mem soup html base u, ?_⟩
  exact linksOk_crawlLoop pick fetch soup fuel (by simp [initState, emptyCorpus])

/-- Witness for C3: in a concrete crawl over a crafted page, the
in-domain resolved anchor is in the corpus links and passes the filter. -/
theorem C3_same_domain_links_witness :
    linkAllowed "https://example.com/page2" ∧
    "https://example.com/page2" ∈
      (crawl pick0 fetchSeedOnly soupCross 4).data.all_links := by
  have h := C3_same_domain_links pick0 fetchSeedOnly soupCross 4
  have hm : "https://example.com/page2" ∈
      (crawl pick0 fetchSeedOnly soupCross 4).data.all_links := by decide
  exact ⟨h.2 _ hm, hm⟩

/-- C4: a URL is in the extracted images of a page iff it is the
resolution of some image source of the page — no domain filter; the
merge step puts every page image into the corpus; and on a crafted page
the cross-domain image reaches `all_images` while the cross-domain
anchor is excluded from `all_links`. -/
theorem C4_images_unfiltered (soup : String → Html) :
    (∀ html base u : String,
      u ∈ (parse_data soup html base).images ↔
        ∃ src ∈ (soup html).imgs, urljoin base src = u) ∧
    (∀ (c : Corpus) (p : PageData), ∀ u ∈ p.images,
      u ∈ (mergeCorpus c p).all_images) ∧
    "https://cdn.other.net/pic.jpg" ∈
      (crawl pick0 fetchSeedOnly soupCross 4).data.all_images ∧
    "https://other.org/x" ∉
      (crawl pick0 fetchSeedOnly soupCross 4).data.all_links := by
  refine ⟨fun html base u => parse_data_images_mem soup html base u,
    ?_, by decide, by decide⟩
  intro c p u hu
  show u ∈ sunion c.all_images p.images
  rw [mem_sunion]
  exact Or.inr hu

/-- Witness for C4: a concrete cross-domain image survives the merge
into the corpus. -/
theorem C4_images_unfiltered_witness :
    "https://cdn.other.net/pic.jpg" ∈
      (mergeCorpus emptyCorpus
        (parse_data soupCross "<html>" START_URL)).all_images := by
  have h := C4_images_unfiltered soupCross
  exact h.2.1 emptyCorpus _ _ (by decide)

/-- C5: when the fetch of the popped URL fails, the iteration records
that URL as visited, leaves the corpus untouched (no extraction, no
merge), removes the URL from the frontier, and — whenever the guard
holds — the loop proceeds to the next iteration, so a failed fetch
never aborts the crawl. -/
theorem C5_failed_fetch (pick : List String → Nat)
    (fetch : String → Option String) (soup : String → Html)
    (s : CrawlState) (fuel : Nat) :
    (popped pick s.urls_to_visit ∉ s.visited_urls →
      fetch (popped pick s.urls_to_visit) = none →
      (step pick fetch soup s).visited_urls =
        sinsert s.visited_urls (popped pick s.urls_to_visit) ∧
      (step pick fetch soup s).data = s.data ∧
      (step pick fetch soup s).urls_to_visit =
        s.urls_to_visit.erase (popped pick s.urls_to_visit)) ∧
    (shouldContinue s = true →
      crawlLoop pick fetch soup (fuel + 1) s =
        crawlLoop pick fetch soup fuel (step pick fetch soup s)) := by
  constructor
  · intro hm hf
    rw [step_fail soup hm hf]
    exact ⟨rfl, rfl, rfl⟩
  · exact fun h => crawlLoop_of_continue h fuel

/-- Witness for C5: the failed seed fetch at concrete oracles. -/
theorem C5_failed_fetch_witness :
    ((step pick0 fetchNone soupEmpty initState).visited_urls =
      sinsert initState.visited_urls (popped pick0 initState.urls_to_visit) ∧
    (step pick0 fetchNone soupEmpty initState).data = initState.data ∧
    (step pick0 fetchNone soupEmpty initState).urls_to_visit =
      initState.urls_to_visit.erase (popped pick0 initState.urls_to_visit)) ∧
    crawlLoop pick0 fetchNone soupEmpty 1 initState =
      crawlLoop pick0 fetchNone soupEmpty 0
        (step pick0 fetchNone soupEmpty initState) := by
  have h := C5_failed_fetch pick0 fetchNone soupEmpty initState 0
  exact ⟨h.1 (by decide) rfl, h.2 (by decide)⟩

/-- C6: if the credential is present, the seed fetch fails and hence no
URL beyond the seed is ever discovered, then the crawl ends (for any
fuel at least 1) with the seed visited, an empty corpus and an empty
frontier, the guard is false, and the main block still produces the
explicit no-data outcome instead of crashing. -/
theorem C6_seed_fetch_failure (apiKey : Option String)
    (pick : List String → Nat) (fetch : String → Option String)
    (soup : String → Html) (llm : String → Except String String)
    (fuel : Nat) (hkey : keyTruthy apiKey = true)
    (hf : fetch START_URL = none) (hfuel : 1 ≤ fuel) :
    crawl pick fetch soup fuel =
      { urls_to_visit := [], visited_urls := [START_URL],
        data := emptyCorpus, fetched := [START_URL] } ∧
    shouldContinue (crawl pick fetch soup fuel) = false ∧
    mainRun apiKey pick fetch soup llm fuel = (.noData, [START_URL]) := by
  obtain ⟨n, rfl⟩ : ∃ n, fuel = n + 1 := ⟨fuel - 1, by omega⟩
  have hpop : popped pick initState.urls_to_visit = START_URL :=
    popped_singleton pick START_URL
  have hstep : step pick fetch soup initState =
      { urls_to_visit := [], visited_urls := [START_URL],
        data := emptyCorpus, fetched := [START_URL] } := by
    rw [step_fail soup (by simp [initState]) (by rw [hpop]; exact hf)]
    rw [hpop]
    decide
  have hcrawl : crawl pick fetch soup (n + 1) =
      { urls_to_visit := [], visited_urls := [START_URL],
        data := emptyCorpus, fetched := [START_URL] } := by
    show crawlLoop pick fetch soup (n + 1) initState = _
    rw [crawlLoop_of_continue (by decide), hstep,
      crawlLoop_of_stop (by decide)]
  refine ⟨hcrawl, by rw [hcrawl]; decide, ?_⟩
  rw [mainRun, if_neg (by simp [hkey])]
  rw [show crawl pick fetch soup (n + 1) = _ from hcrawl]
  rw [if_neg (by decide)]

/-- Witness for C6 at concrete oracles. -/
theorem C6_seed_fetch_failure_witness :
    crawl pick0 fetchNone soupEmpty 5 =
      { urls_to_visit := [], visited_urls := [START_URL],
        data := emptyCorpus, fetched := [START_URL] } ∧
    shouldContinue (crawl pick0 fetchNone soupEmpty 5) = false ∧
    mainRun (some "key") pick0 fetchNone soupEmpty llmOk 5 =
      (.noData, [START_URL]) :=
  C6_seed_fetch_failure (some "key") pick0 fetchNone soupEmpty llmOk 5
    (by decide) rfl (by omega)

/-- C7: with a falsy credential (unset or empty), the run reports the
precondition failure and the fetch trace is empty — no fetch is ever
attempted and no crawling begins; the summarizer wrapper also refuses
with its own credential error for every corpus. -/
theorem C7_missing_credential (apiKey : Option String)
    (pick : List String → Nat) (fetch : String → Option String)
    (soup : String → Html) (llm : String → Except String String)
    (fuel : Nat) (hkey : keyTruthy apiKey = false) :
    mainRun apiKey pick fetch soup llm fuel = (.missingKey, []) ∧
    (∀ c : Corpus, call_llm apiKey llm c =
      "Error: GOOGLE_API_KEY not found in environment variables.") := by
  constructor
  · rw [mainRun, if_pos (by simp [hkey])]
  · intro c
    rw [call_llm, if_pos (by simp [hkey])]

/-- Witness for C7: the unset credential at concrete oracles. -/
theorem C7_missing_credential_witness :
    mainRun none pick0 fetchNone soupEmpty llmOk 5 = (.missingKey, []) :=
  (C7_missing_credential none pick0 fetchNone soupEmpty llmOk 5 rfl).1

/-- C8 counterexample: with eleven links the prompt's link list is
truncated to ten, yet the links section of the prompt contains no
occurrence of "more" at all — so no "…and N more" marker exists; the
truncation marker the code emits is the bare "...". -/
theorem C8_counterexample_marker :
    10 < cEleven.all_links.length ∧
    build_prompt cEleven =
      introLine ++ textSection "" ++ linksSection cEleven.all_links
        ++ imagesSection [] ++ tablesHeader [] ++ tableLines 0 [] ∧
    hasSub (linksSection cEleven.all_links).data "more".data = false := by
  refine ⟨by decide, rfl, by decide⟩

/-- C8 (amended): prompt construction deterministically truncates the
corpus with constant limits — the text to its 500-character prefix, the
link and image lists to their first 10 elements with the bare "..."
marker exactly when more exist (the total count being printed in the
section header), and the tables to the first 3 entries of at most 300
characters each, with the explicit "... (more tables exist)" marker
exactly when a fourth table exists. -/
theorem C8_prompt_truncation (c : Corpus) :
    build_prompt c =
      introLine ++ textSection c.all_text ++ linksSection c.all_links
        ++ imagesSection c.all_images ++ tablesHeader c.all_tables
        ++ (renderShown 0 (c.all_tables.take 3)
            ++ (if 3 < c.all_tables.length then "... (more tables exist)\n"
                else "")) ∧
    textSection c.all_text =
      "Extracted Text Summary (first 500 chars):\n" ++ c.all_text.take 500
        ++ "...\n\n" ∧
    (c.all_text.take 500).length ≤ 500 ∧
    linksSection c.all_links =
      "Key Links Found (" ++ toString c.all_links.length ++ " total):\n"
        ++ pyReprList (c.all_links.take 10) ++ " "
        ++ (if c.all_links.length > 10 then "..." else "") ++ "\n\n" ∧
    (c.all_links.take 10).length ≤ 10 ∧
    (c.all_images.take 10).length ≤ 10 ∧
    (c.all_tables.take 3).length ≤ 3 ∧
    (∀ t : String, (t.take 300).length ≤ 300) := by
  refine ⟨?_, rfl, length_take_le_str _ _, rfl, List.length_take_le _ _,
    List.length_take_le _ _, List.length_take_le _ _,
    fun t => length_take_le_str t 300⟩
  rw [build_prompt, tableLines_take_three]

/-- C9: table extraction is total — when the table collaborator raises
(no parseable tables or malformed markup) the page's table list is
empty and the merge appends nothing to the corpus tables; when it
returns tables, the page renders one entry per table, numbered
sequentially from 1. -/
theorem C9_tables_total (soup : String → Html) :
    (∀ html base : String, (soup html).tables = .error () →
      (parse_data soup html base).tables = []) ∧
    (∀ (c : Corpus) (p : PageData), p.tables = [] →
      (mergeCorpus c p).all_tables = c.all_tables) ∧
    (∀ (html base : String) (ts : List String),
      (soup html).tables = .ok ts →
      (parse_data soup html base).tables.length = ts.length ∧
      ∀ i : Nat, i < ts.length →
        (parse_data soup html base).tables.getD i "" =
          mkTableLabel (i + 1) (ts.getD i "")) := by
  refine ⟨?_, ?_, ?_⟩
  · intro html base herr
    show (match (soup html).tables with
      | .error _ => ([] : List String)
      | .ok ts => numberTables 0 ts) = []
    rw [herr]
  · intro c p hp
    show c.all_tables ++ p.tables = c.all_tables
    rw [hp, List.append_nil]
  · intro html base ts hok
    have htab : (parse_data soup html base).tables = numberTables 0 ts := by
      show (match (soup html).tables with
        | .error _ => ([] : List String)
        | .ok ts => numberTables 0 ts) = _
      rw [hok]
    rw [htab]
    refine ⟨numberTables_length 0 ts, fun i hi => ?_⟩
    rw [numberTables_getD ts 0 i hi, Nat.zero_add]

/-- Witness for C9: a table-free page yields no corpus tables, and a
two-table page numbers its first table 1. -/
theorem C9_tables_total_witness :
    (parse_data soupEmpty "<html>" START_URL).tables = [] ∧
    (mergeCorpus emptyCorpus
      (parse_data soupEmpty "<html>" START_URL)).all_tables = [] ∧
    (parse_data soupTables "x" START_URL).tables.getD 0 "" =
      mkTableLabel 1 "|a|" := by
  have h1 := (C9_tables_total soupEmpty).1 "<html>" START_URL rfl
  have h2 := (C9_tables_total soupEmpty).2.1 emptyCorpus
    (parse_data soupEmpty "<html>" START_URL) h1
  have h3 := ((C9_tables_total soupTables).2.2 "x" START_URL
    ["|a|", "|b|"] rfl).2 0 (by decide)
  exact ⟨h1, h2, h3⟩

/-- C10: whenever the loop guard holds the frontier is non-empty, so the
pop cannot fail; after any number of iterations every frontier URL is
outside the visited set, so in particular the popped URL is never
already visited and the skip branch of lines 142–143 is unreachable. -/
theorem C10_skip_unreachable (pick : List String → Nat)
    (fetch : String → Option String) (soup : String → Html) (fuel : Nat) :
    (shouldContinue (crawl pick fetch soup fuel) = true →
      (crawl pick fetch soup fuel).urls_to_visit ≠ []) ∧
    (∀ u ∈ (crawl pick fetch soup fuel).urls_to_visit,
      u ∉ (crawl pick fetch soup fuel).visited_urls) ∧
    ((crawl pick fetch soup fuel).urls_to_visit ≠ [] →
      popped pick (crawl pick fetch soup fuel).urls_to_visit ∈
        (crawl pick fetch soup fuel).urls_to_visit ∧
      popped pick (crawl pick fetch soup fuel).urls_to_visit ∉
        (crawl pick fetch soup fuel).visited_urls) := by
  have hinv := inv_crawlLoop pick fetch soup fuel (s := initState) inv_init
  refine ⟨fun h => ((shouldContinue_iff _).mp h).1, hinv.2.2.1,
    fun hne => ?_⟩
  have hp := popped_mem pick hne
  exact ⟨hp, hinv.2.2.1 _ hp⟩

/-- Witness for C10: after one iteration of a concrete crawl, the
frontier is non-empty and the URL about to be popped is unvisited. -/
theorem C10_skip_unreachable_witness :
    popped pick0 (crawl pick0 fetchSeedOnly soupCross 1).urls_to_visit ∈
      (crawl pick0 fetchSeedOnly soupCross 1).urls_to_visit ∧
    popped pick0 (crawl pick0 fetchSeedOnly soupCross 1).urls_to_visit ∉
      (crawl pick0 fetchSeedOnly soupCross 1).visited_urls :=
  (C10_skip_unreachable pick0 fetchSeedOnly soupCross 1).2.2 (by decide)

end LlmScrape
